import Mathlib

/-
Verification of the EnkelGit version-control core.

This development gives a shallow embedding of the repository's command layer
(src/Core.js: init, add, rm, commit, checkout, update_index, update_ref,
write_tree), of the configuration serializer (src/Config.js) and of the object
store's write operation (the unnamed Objects module fragment).  Repository
state is passed explicitly: every operation takes a RepoState and returns the
new state together with an `Except String String` mirroring the JavaScript
convention of either throwing an Error (whose message is the error string) or
returning a result string.  Mutations performed before a throw persist in the
returned state, exactly as filesystem writes performed before a JavaScript
exception do.

The helper modules Files.js, Index.js, Diff.js, Refers.js, Objects.js (apart
from its write function), Merge.js and WorkingCopy.js are not part of the
source tree; where an operation of the command layer depends on them they are
modelled from the spec, and each such definition carries a doc comment saying
so.  Hashes are modelled as an injective serialization of the hashed content
(a collision-free deterministic content digest, which is what the spec
requires of the digest).
-/

namespace EnkelGit

/-- Removal of every binding of a key from an association list. -/
def assocErase {α : Type} : List (String × α) → String → List (String × α)
  | [], _ => []
  | kv :: rest, k =>
    if kv.1 == k then assocErase rest k else kv :: assocErase rest k

/-- Association-list update: removes any binding of the key and appends the
new binding.  Models overwriting a file at a path (Files.write). -/
def assocSet {α : Type} (l : List (String × α)) (k : String) (v : α) :
    List (String × α) :=
  assocErase l k ++ [(k, v)]

/-- Association-list lookup; models reading the file stored at a key. -/
def assocLookup {α : Type} : List (String × α) → String → Option α
  | [], _ => none
  | kv :: rest, k => if kv.1 == k then some kv.2 else assocLookup rest k

/-- Prefix test on character lists (structural recursion, so that concrete
states evaluate by kernel reduction). -/
def listIsPrefixOf : List Char → List Char → Bool
  | [], _ => true
  | _ :: _, [] => false
  | a :: as, b :: bs => a == b && listIsPrefixOf as bs

/-- String.startsWith: pre is a prefix of s. -/
def strStartsWith (s pre : String) : Bool :=
  listIsPrefixOf pre.data s.data

/-- String.drop: the string without its first n characters. -/
def strDrop (s : String) (n : Nat) : String :=
  String.mk (s.data.drop n)

namespace Objects

/-- The object store's write (the unnamed Objects module fragment):
`write(str)` persists `str` at objects/<hash(str)> and returns `hash(str)`.
The store is the list of (hash, content) files in the objects directory;
Files.write (missing from the source tree) is modelled from the spec as a
whole-value overwrite of the file at that path.  The digest function is a
parameter: the spec requires only that it is a deterministic content
digest. -/
def write (hashFn : String → String) (store : List (String × String))
    (str : String) : (List (String × String)) × String :=
  (assocSet store (hashFn str) str, hashFn str)

/-- Number of persisted records in the store holding exactly the content c. -/
def countRecords (store : List (String × String)) (c : String) : Nat :=
  (store.filter (fun kv => kv.2 == c)).length

/-- A store is hash-consistent when every record is filed under the digest of
its own content (which write guarantees for every record it creates). -/
def HashConsistent (hashFn : String → String)
    (store : List (String × String)) : Prop :=
  ∀ kv ∈ store, kv.1 = hashFn kv.2

end Objects

/-- A stored object: blob, tree or commit.  Modelled from the spec: records
self-describe their kind via a structural tag (Objects.js is not in the
source tree).  Trees are kept in flattened table-of-contents form (path to
blob hash), which by the spec's structural-hashing invariant determines the
tree object. -/
inductive GitObject where
  | blob (content : String)
  | tree (toc : List (String × String))
  | commit (treeHash : String) (parents : List String) (msg : String)
deriving DecidableEq, Repr

/-- Serialization of a table of contents, used by the injective digest. -/
def serToc : List (String × String) → String
  | [] => ""
  | (p, h) :: rest => p ++ " " ++ h ++ ";" ++ serToc rest

/-- Modelled from the spec: the deterministic content digest of an object.
An injective serialization stands in for the collision-free hash. -/
def objHash : GitObject → String
  | .blob c => "b:" ++ c
  | .tree toc => "t:" ++ serToc toc
  | .commit th ps m => "c:" ++ th ++ "|" ++ String.intercalate "," ps ++ "|" ++ m

/-- The structural tag of an object, as returned by Objects.type. -/
def objTypeStr : GitObject → String
  | .blob _ => "blob"
  | .tree _ => "tree"
  | .commit _ _ _ => "commit"

/-- One index entry: path, conflict stage (0 = resolved, 1-3 = conflict) and
content hash, as in the spec's index data model. -/
structure Entry where
  path : String
  stage : Nat
  hash : String
deriving DecidableEq, Repr

/-- The whole repository state: the objects directory, the index file, the
HEAD file's content, the refs/heads directory, the MERGE_HEAD and MERGE_MSG
marker files, the working copy's files and the directories present on disk. -/
structure RepoState where
  objects : List (String × GitObject)
  index : List Entry
  headContent : String
  branches : List (String × String)
  mergeHead : Option String
  mergeMsg : Option String
  workingCopy : List (String × String)
  dirs : List String
deriving DecidableEq, Repr

/-- Objects.exists on a hash string. -/
def objExistsS (objs : List (String × GitObject)) (h : String) : Bool :=
  (assocLookup objs h).isSome

/-- Objects.exists applied to a possibly-undefined hash (JavaScript's
fs.existsSync(undefined) is false). -/
def objExistsOpt (objs : List (String × GitObject)) : Option String → Bool
  | none => false
  | some h => objExistsS objs h

/-- Objects.read: the object stored under a hash, if any. -/
def objLookup (objs : List (String × GitObject)) (h : String) :
    Option GitObject :=
  assocLookup objs h

/-- Whether the (possibly undefined) hash resolves to a stored commit object:
Objects.type(Objects.read(h)) === "commit". -/
def isCommitAt (s : RepoState) : Option String → Bool
  | none => false
  | some h =>
    match objLookup s.objects h with
    | some o => objTypeStr o == "commit"
    | none => false

/-- Modelled from the spec (Refers.js is not in the source tree): HEAD is
detached when it holds a raw hash rather than a symbolic pointer. -/
def isHeadDetached (s : RepoState) : Bool :=
  !(strStartsWith s.headContent "ref: ")

/-- Modelled from the spec: the branch name HEAD is attached to, if any. -/
def headBranchName (s : RepoState) : Option String :=
  if strStartsWith s.headContent "ref: refs/heads/" then
    some (strDrop s.headContent 16)
  else none

/-- Modelled from the spec (Refers.hash): if the string already matches a
persisted object hash it is returned as-is; otherwise it is resolved as a
reference name, following at most one symbolic hop (HEAD to branch);
undefined if unresolvable.  A dangling branch resolves to none. -/
def refHash (s : RepoState) (ref : String) : Option String :=
  if objExistsS s.objects ref then some ref
  else if ref == "HEAD" then
    if isHeadDetached s then some s.headContent
    else
      match headBranchName s with
      | some b => assocLookup s.branches b
      | none => none
  else if ref == "MERGE_HEAD" then s.mergeHead
  else assocLookup s.branches ref

/-- Merge.isMergeInProgress: true iff the MERGE_HEAD marker is present. -/
def isMergeInProgress (s : RepoState) : Bool :=
  s.mergeHead.isSome

/-- Index.toc: the stage-0 entries of the index as a path-to-hash table. -/
def indexToc (idx : List Entry) : List (String × String) :=
  (idx.filter (fun e => e.stage == 0)).map (fun e => (e.path, e.hash))

/-- Index.hasFile(path, stage): an entry for the path at the given stage. -/
def hasFile (idx : List Entry) (p : String) (stage : Nat) : Bool :=
  idx.any (fun e => e.path == p && e.stage == stage)

/-- Modelled from the spec (Index.js): a path is in conflict when any
stage 1-3 entry exists for it. -/
def isFileInConflict (idx : List Entry) (p : String) : Bool :=
  hasFile idx p 1 || hasFile idx p 2 || hasFile idx p 3

/-- Helper keeping the first occurrence of each element (structural
recursion over the input, carrying the elements already seen). -/
def dedupSeen : List String → List String → List String
  | [], _ => []
  | x :: xs, seen =>
    if seen.contains x then dedupSeen xs seen else x :: dedupSeen xs (x :: seen)

def dedupKeepFirst (l : List String) : List String :=
  dedupSeen l []

/-- Modelled from the spec (Index.conflictedPaths): the set of paths with any
non-zero stage entry. -/
def conflictedPaths (idx : List Entry) : List String :=
  dedupKeepFirst ((idx.filter (fun e => !(e.stage == 0))).map (·.path))

/-- Modelled from the spec (Index.matchingFiles): the staged paths under the
given prefix, matching on whole path segments. -/
def pathMatches (pre p : String) : Bool :=
  p == pre || strStartsWith p (pre ++ "/")

def matchingFiles (idx : List Entry) (pathSpec : String) : List String :=
  ((indexToc idx).map (·.1)).filter (pathMatches pathSpec)

/-- The hash of the blob holding a file's content. -/
def blobHash (content : String) : String :=
  objHash (.blob content)

/-- Modelled from the spec: the working copy as a content state, each file's
literal content hashed on the fly. -/
def wcToc (s : RepoState) : List (String × String) :=
  s.workingCopy.map (fun kv => (kv.1, blobHash kv.2))

/-- Objects.commitToc: the flattened table of contents of a commit's tree. -/
def commitToc (s : RepoState) (h : String) : List (String × String) :=
  match objLookup s.objects h with
  | some (.commit th _ _) =>
    match objLookup s.objects th with
    | some (.tree toc) => toc
    | _ => []
  | _ => []

/-- The content state of the HEAD commit (empty when there is no commit). -/
def headToc (s : RepoState) : List (String × String) :=
  match refHash s "HEAD" with
  | some h => commitToc s h
  | none => []

/-- The keys appearing in either of two content states. -/
def unionKeys (a b : List (String × String)) : List String :=
  dedupKeepFirst (a.map (·.1) ++ b.map (·.1))

/-- Modelled from the spec (Diff.js): the paths at which two content states
differ (added, removed or modified; unchanged paths are omitted). -/
def diffPaths (a b : List (String × String)) : List String :=
  (unionKeys a b).filter (fun p => !(assocLookup a p == assocLookup b p))

/-- util.intersection: the elements of the first list present in the second,
in the first list's order. -/
def intersectionL (a b : List String) : List String :=
  a.filter (fun x => b.contains x)

/-- Modelled from the spec (Diff.addedOrModifiedFiles): paths differing
between the index and the working copy classified as added or modified,
i.e. excluding deletions (paths absent from the working copy). -/
def addedOrModifiedFiles (s : RepoState) : List String :=
  (diffPaths (indexToc s.index) (wcToc s)).filter
    (fun p => (assocLookup (wcToc s) p).isSome)

/-- Modelled from the spec (Diff.changedFilesCommitWouldOverwrite): the paths
that differ between the working copy and HEAD and also differ between HEAD
and the target commit. -/
def changedFilesCommitWouldOverwrite (s : RepoState) (toHash : String) :
    List String :=
  intersectionL (diffPaths (headToc s) (wcToc s))
    (diffPaths (headToc s) (commitToc s toHash))

/-- fs.existsSync on a repository path: a working-copy file or a directory. -/
def isOnDiskB (s : RepoState) (p : String) : Bool :=
  (assocLookup s.workingCopy p).isSome || s.dirs.contains p

/-- fs.statSync(path).isDirectory(). -/
def isDirB (s : RepoState) (p : String) : Bool :=
  s.dirs.contains p

/-- Array.join("\n"). -/
def joinNL (xs : List String) : String :=
  String.intercalate "\n" xs

/-- Modelled from the spec (Index.writeNonConflict): hashes the content into
the object store as a blob and replaces any existing entries for the path
with a single stage-0 entry. -/
def writeNonConflict (s : RepoState) (p content : String) : RepoState :=
  { s with
    objects := assocSet s.objects (blobHash content) (.blob content),
    index := s.index.filter (fun e => !(e.path == p)) ++
      [⟨p, 0, blobHash content⟩] }

/-- Modelled from the spec (Index.writeRm): removes all entries for the
path.  (In Core.js's update_index the call is guarded by the conflict check,
so the spec's Unsupported failure cannot fire at this call site.) -/
def writeRm (idx : List Entry) (p : String) : List Entry :=
  idx.filter (fun e => !(e.path == p))

/-- Core.js update_index: adds the file's current content to the index, or
removes the file from the index.  Returns the new state plus the thrown
error or the returned string. -/
def update_index (s : RepoState) (p : String) (optAdd optRemove : Bool) :
    RepoState × Except String String :=
  let isOnDisk := isOnDiskB s p
  let isInIndex := hasFile s.index p 0
  if isOnDisk && isDirB s p then
    (s, .error (p ++ " is a directory - add files inside\n"))
  else if optRemove && !isOnDisk && isInIndex then
    if isFileInConflict s.index p then
      (s, .error "unsupported")
    else
      ({ s with index := writeRm s.index p }, .ok "\n")
  else if optRemove && !isOnDisk && !isInIndex then
    (s, .ok "\n")
  else if !optAdd && isOnDisk && !isInIndex then
    (s, .error ("cannot add " ++ p ++ " to index - use --add option\n"))
  else if isOnDisk && (optAdd || isInIndex) then
    (writeNonConflict s p ((assocLookup s.workingCopy p).getD ""), .ok "\n")
  else if !optRemove && !isOnDisk then
    (s, .error (p ++ " does not exist and --remove not passed\n"))
  else
    (s, .ok "")

/-- The forEach loop at the end of Core.js rm: update_index with remove for
each matched file, propagating a thrown error. -/
def runRmUpdates (s : RepoState) : List String → RepoState × Except String String
  | [] => (s, .ok "")
  | p :: ps =>
    match update_index s p false true with
    | (s', .ok _) => runRmUpdates s' ps
    | (s', .error e) => (s', .error e)

/-- Core.js rm: removes files that match the path from the index (and from
disk), aborting when forced, when nothing matches, when the path is an
unrecursed directory, or when matched files have uncommitted changes. -/
def rm (s : RepoState) (p : String) (optF optR : Bool) :
    RepoState × Except String String :=
  let filesToRm := matchingFiles s.index p
  if optF then
    (s, .error "unsupported")
  else if filesToRm.isEmpty then
    (s, .error (p ++ " did not match any files"))
  else if isOnDiskB s p && isDirB s p && !optR then
    (s, .error ("not removing " ++ p ++ " recursively without -r"))
  else
    let changesToRm := intersectionL (addedOrModifiedFiles s) filesToRm
    if !changesToRm.isEmpty then
      (s, .error ("these files have changes:\n" ++ joinNL changesToRm ++ "\n"))
    else
      let s1 := { s with
        workingCopy := s.workingCopy.filter (fun kv => !(filesToRm.contains kv.1)) }
      runRmUpdates s1 filesToRm

/-- Core.js write_tree builds the tree object for the index's current
table of contents; this is its hash. -/
def writeTreeHash (s : RepoState) : String :=
  objHash (.tree (indexToc s.index))

/-- The state after Core.js write_tree has stored the tree object. -/
def commitTreeState (s : RepoState) : RepoState :=
  { s with objects :=
      assocSet s.objects (writeTreeHash s) (GitObject.tree (indexToc s.index)) }

/-- Objects.treeHash(Objects.read(Refs.hash("HEAD"))): the tree hash of the
commit HEAD points at, if HEAD resolves to a stored commit. -/
def headTreeHash (s : RepoState) : Option String :=
  match refHash s "HEAD" with
  | some h =>
    match objLookup s.objects h with
    | some (.commit th _ _) => some th
    | _ => none
  | none => none

/-- The first guard of Core.js commit: HEAD resolves to a commit whose tree
equals the tree just written from the index. -/
def nothingToCommitB (s : RepoState) : Bool :=
  (refHash (commitTreeState s) "HEAD").isSome &&
    (headTreeHash (commitTreeState s) == some (writeTreeHash s))

/-- Modelled from the spec (Refers.commitParentHashes): one parent (current
HEAD) normally, none for a root commit, and additionally MERGE_HEAD while a
merge is in progress. -/
def commitParentHashes (s : RepoState) : List String :=
  match refHash s "HEAD" with
  | none => []
  | some h => if isMergeInProgress s then h :: s.mergeHead.toList else [h]

/-- Modelled from the spec (Refers.terminalRef): HEAD's symbolic indirection
resolved to the concrete branch ref; for a detached HEAD the terminal ref is
HEAD itself; a bare branch name maps to its refs/heads ref. -/
def terminalRef (s : RepoState) (ref : String) : String :=
  if ref == "HEAD" then
    if isHeadDetached s then "HEAD" else strDrop s.headContent 5
  else if strStartsWith ref "refs/heads/" then ref
  else "refs/heads/" ++ ref

/-- Modelled from the spec (Refers.isRef): syntactic validity of a ref name
(the HEAD forms or a refs/ path). -/
def isRefB (name : String) : Bool :=
  name == "HEAD" || name == "MERGE_HEAD" || name == "FETCH_HEAD" ||
    strStartsWith name "refs/"

/-- Modelled from the spec (Refers.write): whole-value replacement of the
file the ref represents. -/
def refsWrite (s : RepoState) (name content : String) : RepoState :=
  if name == "HEAD" then { s with headContent := content }
  else if name == "MERGE_HEAD" then { s with mergeHead := some content }
  else if strStartsWith name "refs/heads/" then
    { s with branches := assocSet s.branches (strDrop name 11) content }
  else s

/-- Core.js update_ref: resolves the target to a hash and points the ref's
terminal ref at it, aborting on an unresolvable target, a malformed ref or a
non-commit target. -/
def update_ref (s : RepoState) (refToUpdate refToUpdateTo : String) :
    RepoState × Except String String :=
  let hashOpt := refHash s refToUpdateTo
  if !(objExistsOpt s.objects hashOpt) then
    (s, .error (refToUpdateTo ++ " not a valid SHA1"))
  else if !(isRefB refToUpdate) then
    (s, .error ("cannot lock the ref " ++ refToUpdate))
  else if !(isCommitAt s hashOpt) then
    (s, .error (terminalRef s refToUpdate ++ " cannot refer to non-commit object "
      ++ hashOpt.getD "" ++ "\n"))
  else
    (refsWrite s (terminalRef s refToUpdate) (hashOpt.getD ""), .ok "")

/-- The conflict message thrown by Core.js commit: a "U path" line per
conflicted path, then the unmerged-files sentence. -/
def unresolvedConflictsMsg (idx : List Entry) : String :=
  joinNL ((conflictedPaths idx).map (fun p => "U " ++ p)) ++
    "\ncannot commit because you have unmerged files\n"

/-- The hash of the commit object a successful commit of this state with
this message would write (mirrors the writeCommit call in Core.js). -/
def newCommitHash (s : RepoState) (m : String) : String :=
  objHash (.commit (writeTreeHash s) (commitParentHashes (commitTreeState s)) m)

/-- Core.js commit: writes the index's tree, aborts when there is nothing to
commit or when a merge is in progress with unresolved conflicts, writes the
commit object, points HEAD at it, and finishes the merge state if any.
Finishing the merge calls Files.gitletPath, a function the Files module does
not define (every other call site uses Files.enkelgitPath), so that branch
throws a TypeError after HEAD has already been updated. -/
def commit (s : RepoState) (optsM : String) : RepoState × Except String String :=
  let treeHash := writeTreeHash s
  let s1 := commitTreeState s
  let headDesc := if isHeadDetached s then "detached HEAD"
    else (headBranchName s).getD "undefined"
  if nothingToCommitB s then
    (s1, .error ("# On " ++ headDesc ++ "\nnothing to commit, working directory clean"))
  else if isMergeInProgress s1 && !(conflictedPaths s1.index).isEmpty then
    (s1, .error (unresolvedConflictsMsg s1.index))
  else
    let m := if isMergeInProgress s1 then s1.mergeMsg.getD "undefined" else optsM
    let cObj := GitObject.commit treeHash (commitParentHashes s1) m
    let cHash := objHash cObj
    let s2 := { s1 with objects := assocSet s1.objects cHash cObj }
    match update_ref s2 "HEAD" cHash with
    | (s3, .error e) => (s3, .error e)
    | (s3, .ok _) =>
      if isMergeInProgress s3 then
        (s3, .error "TypeError: Files.gitletPath is not a function")
      else
        (s3, .ok ("[" ++ headDesc ++ " " ++ cHash ++ "] " ++ m))

/-- The guard of Core.js checkout's already-on branch: the ref names the
checked-out branch, or equals the exact content stored in HEAD. -/
def alreadyOnB (s : RepoState) (ref : String) : Bool :=
  (headBranchName s == some ref) || (s.headContent == ref)

/-- The content of the blob stored under a hash (empty when absent); used by
the working-copy writer to materialize a path's resolved content. -/
def blobContent (objs : List (String × GitObject)) (h : String) : String :=
  match objLookup objs h with
  | some (.blob c) => c
  | _ => ""

/-- Modelled from the spec (WorkingCopy.write applied to a diff): for each
differing path, write the target state's resolved content to disk, or delete
the file when the target lacks the path. -/
def applyDiff (objs : List (String × GitObject))
    (fromToc toToc : List (String × String))
    (wc : List (String × String)) : List (String × String) :=
  (diffPaths fromToc toToc).foldl
    (fun w p =>
      match assocLookup toToc p with
      | some h => assocSet w p (blobContent objs h)
      | none => w.filter (fun kv => !(kv.1 == p)))
    wc

/-- Modelled from the spec (Index.tocToIndex): a fresh index with one
stage-0 entry per pair of the table of contents. -/
def tocToIndex (toc : List (String × String)) : List Entry :=
  toc.map (fun kv => ⟨kv.1, 0, kv.2⟩)

/-- Core.js checkout: changes the index, working copy and HEAD to reflect
the content of the ref (a branch name or a commit hash), aborting on an
unknown ref, a non-commit target, or local changes the checkout would
overwrite, and returning early when the ref is already checked out. -/
def checkout (s : RepoState) (ref : String) : RepoState × Except String String :=
  let toHashOpt := refHash s ref
  if !(objExistsOpt s.objects toHashOpt) then
    (s, .error (ref ++ " did not match any file(s) known to Enkelgit"))
  else if !(isCommitAt s toHashOpt) then
    (s, .error ("reference is not a tree: " ++ ref))
  else if alreadyOnB s ref then
    (s, .ok ("Already on " ++ ref))
  else
    let toHash := toHashOpt.getD ""
    let paths := changedFilesCommitWouldOverwrite s toHash
    if !paths.isEmpty then
      (s, .error ("local changes would be lost\n" ++ joinNL paths ++ "\n"))
    else
      let isDetachingHead := objExistsS s.objects ref
      let wcNew := applyDiff s.objects (headToc s) (commitToc s toHash) s.workingCopy
      let headNew := if isDetachingHead then toHash
        else "ref: " ++ ("refs/heads/" ++ ref)
      let idxNew := tocToIndex (commitToc s toHash)
      ({ s with workingCopy := wcNew, headContent := headNew, index := idxNew },
        .ok (if isDetachingHead then
          "Note: checking out " ++ toHash ++ "\nYou are in detached HEAD state."
        else "Switched to branch " ++ ref))

/-- Config.objToStr from Config.js applied to the structure init builds:
one section header, one bare setting. -/
def configObjToStr (bare : Bool) : String :=
  "[core]\n  bare = " ++ (if bare then "true" else "false") ++ "\n"

/-- The state the init command operates on: whether the directory is already
a repository, the files and directories under it, and the error messages
printed so far by CLI.error. -/
structure InitState where
  inRepo : Bool
  files : List (String × String)
  dirs : List String
  errors : List String
deriving DecidableEq, Repr

/-- fs.mkdirSync if missing: writeFilesFromTree creates a directory node
only when it does not already exist. -/
def ensureDir (l : List String) (d : String) : List String :=
  if l.contains d then l else l ++ [d]

/-- Core.js init: when the directory is already a repository, CLI.error only
prints (CLI.js logs in red and returns), so init proceeds to write the
standard structure: HEAD, config, objects/ and refs/heads/ (under .enkelgit/
unless bare), overwriting the metadata files
(Files.writeFilesFromTree is modelled from the spec's on-disk layout). -/
def init (s : InitState) (bare : Bool) : InitState :=
  let s1 := if s.inRepo then
      { s with errors := s.errors ++
        ["This EnkelGit repository is already initialized!"] }
    else s
  let pre := if bare then "" else ".enkelgit/"
  { s1 with
    files := assocSet (assocSet s1.files (pre ++ "HEAD") "ref: refs/heads/master\n")
      (pre ++ "config") (configObjToStr bare),
    dirs := ensureDir (ensureDir s1.dirs (pre ++ "objects")) (pre ++ "refs/heads") }

/-! Concrete repository states used to witness or refute the claims. -/

/-- A state whose index holds a conflict-stage entry while no merge is in
progress (no MERGE_HEAD), on a branch with no commits yet. -/
def stC1ce : RepoState :=
  { objects := [], index := [⟨"f", 2, "b:one"⟩],
    headContent := "ref: refs/heads/master", branches := [],
    mergeHead := none, mergeMsg := none, workingCopy := [], dirs := [] }

/-- A mid-merge state: MERGE_HEAD present, one conflicted path, one resolved
staged entry. -/
def stC1w : RepoState :=
  { objects := [], index := [⟨"f", 2, "b:one"⟩, ⟨"g", 0, "b:two"⟩],
    headContent := "ref: refs/heads/master", branches := [],
    mergeHead := some "mh", mergeMsg := some "mm", workingCopy := [], dirs := [] }

/-- A fresh repository with one staged file and no commits. -/
def stC3ce : RepoState :=
  { objects := [], index := [⟨"f", 0, "b:one"⟩],
    headContent := "ref: refs/heads/master", branches := [],
    mergeHead := none, mergeMsg := none, workingCopy := [], dirs := [] }

/-- A mid-merge state with every conflict resolved: MERGE_HEAD and MERGE_MSG
present, only stage-0 entries. -/
def stC4 : RepoState :=
  { objects := [], index := [⟨"f", 0, "b:one"⟩],
    headContent := "ref: refs/heads/master", branches := [],
    mergeHead := some "mh", mergeMsg := some "Merge b into master",
    workingCopy := [], dirs := [] }

/-- The tree and commit objects of a two-commit history over one file f. -/
def wTreeA : GitObject := .tree [("f", blobHash "one")]

def wCommitA : GitObject := .commit (objHash wTreeA) [] "A"

def wTreeB : GitObject := .tree [("f", blobHash "two")]

def wCommitB : GitObject := .commit (objHash wTreeB) [] "B"

def wObjects : List (String × GitObject) :=
  [(objHash wTreeA, wTreeA), (objHash wCommitA, wCommitA),
   (objHash wTreeB, wTreeB), (objHash wCommitB, wCommitB),
   (blobHash "one", .blob "one"), (blobHash "two", .blob "two")]

/-- On branch master at commit A, with an uncommitted local edit to f
(f also differs between commit A and commit B). -/
def stC2 : RepoState :=
  { objects := wObjects, index := [⟨"f", 0, blobHash "one"⟩],
    headContent := "ref: refs/heads/master",
    branches := [("master", objHash wCommitA)],
    mergeHead := none, mergeMsg := none,
    workingCopy := [("f", "three")], dirs := [] }

/-- On branch master at commit A with a clean working copy. -/
def stC8s : RepoState :=
  { objects := wObjects, index := [⟨"f", 0, blobHash "one"⟩],
    headContent := "ref: refs/heads/master",
    branches := [("master", objHash wCommitA)],
    mergeHead := none, mergeMsg := none,
    workingCopy := [("f", "one")], dirs := [] }

/-- Like stC8s but with a dev branch pointing at commit B. -/
def stC8t : RepoState :=
  { objects := wObjects, index := [⟨"f", 0, blobHash "one"⟩],
    headContent := "ref: refs/heads/master",
    branches := [("master", objHash wCommitA), ("dev", objHash wCommitB)],
    mergeHead := none, mergeMsg := none,
    workingCopy := [("f", "one")], dirs := [] }

/-- A detached-HEAD state at commit B with a new version of f staged. -/
def stC8u : RepoState :=
  { objects := wObjects, index := [⟨"f", 0, blobHash "three"⟩],
    headContent := objHash wCommitB,
    branches := [("master", objHash wCommitA)],
    mergeHead := none, mergeMsg := none,
    workingCopy := [("f", "three")], dirs := [] }

/-- On branch master at commit A (used to check out master again). -/
def stC10 : RepoState :=
  { objects := wObjects, index := [⟨"f", 0, blobHash "one"⟩],
    headContent := "ref: refs/heads/master",
    branches := [("master", objHash wCommitA)],
    mergeHead := none, mergeMsg := none,
    workingCopy := [("f", "one")], dirs := [] }

/-- A state with one staged file whose working-copy content was edited after
staging. -/
def stC6 : RepoState :=
  { objects := [(blobHash "old", .blob "old")],
    index := [⟨"f", 0, blobHash "old"⟩],
    headContent := "ref: refs/heads/master", branches := [],
    mergeHead := none, mergeMsg := none,
    workingCopy := [("f", "new")], dirs := [] }

/-- A mid-merge state whose index holds a stage-2 conflict entry for f,
with f absent from disk. -/
def stC7 : RepoState :=
  { objects := [], index := [⟨"f", 2, "b:x"⟩],
    headContent := "ref: refs/heads/master", branches := [],
    mergeHead := some "mh", mergeMsg := some "mm", workingCopy := [], dirs := [] }

/-- A state with two non-conflicted staged paths, f absent from disk. -/
def stC7b : RepoState :=
  { objects := [], index := [⟨"f", 0, "b:x"⟩, ⟨"g", 0, "b:y"⟩],
    headContent := "ref: refs/heads/master", branches := [],
    mergeHead := some "mh", mergeMsg := some "mm", workingCopy := [], dirs := [] }

/-- A directory that is already a repository, with existing metadata files. -/
def stC9 : InitState :=
  { inRepo := true,
    files := [(".enkelgit/HEAD", "old head"), (".enkelgit/config", "old config")],
    dirs := [".enkelgit", ".enkelgit/objects"], errors := [] }

/-! Helper lemmas. -/

theorem assocLookup_set_self {α : Type} (l : List (String × α)) (k : String)
    (v : α) : assocLookup (assocSet l k v) k = some v := by
  unfold assocSet
  induction l with
  | nil => simp [assocErase, assocLookup]
  | cons hd tl ih =>
    by_cases h : hd.1 = k
    · simpa [assocErase, h] using ih
    · simpa [assocErase, assocLookup, h] using ih

theorem assocLookup_set_ne {α : Type} (l : List (String × α)) (k k' : String)
    (v : α) (h : k' ≠ k) :
    assocLookup (assocSet l k v) k' = assocLookup l k' := by
  unfold assocSet
  induction l with
  | nil => simp [assocErase, assocLookup, Ne.symm h]
  | cons hd tl ih =>
    by_cases hh : hd.1 = k
    · have hne : ¬ hd.1 = k' := by
        intro hc; exact h (hc ▸ hh)
      simpa [assocErase, assocLookup, hh, hne, h, Ne.symm h] using ih
    · by_cases hk' : hd.1 = k'
      · simp [assocErase, assocLookup, hh, hk', h, Ne.symm h]
      · simpa [assocErase, assocLookup, hh, hk', h, Ne.symm h] using ih

theorem mem_of_mem_assocErase {α : Type} {kv : String × α}
    {l : List (String × α)} {k : String} (h : kv ∈ assocErase l k) :
    kv ∈ l := by
  induction l with
  | nil => simp [assocErase] at h
  | cons hd tl ih =>
    by_cases hh : hd.1 = k
    · simp only [assocErase, hh] at h
      simp only [beq_self_eq_true, if_true] at h
      exact List.mem_cons_of_mem _ (ih h)
    · simp only [assocErase] at h
      rw [if_neg (by simpa using hh)] at h
      rcases List.mem_cons.mp h with h1 | h2
      · exact h1 ▸ List.mem_cons_self _ _
      · exact List.mem_cons_of_mem _ (ih h2)

theorem objects_hashConsistent_set (f : String → String)
    (l : List (String × String)) (c : String)
    (h : Objects.HashConsistent f l) :
    Objects.HashConsistent f (assocSet l (f c) c) := by
  intro kv hkv
  unfold assocSet at hkv
  rcases List.mem_append.mp hkv with h1 | h2
  · exact h kv (mem_of_mem_assocErase h1)
  · have : kv = (f c, c) := by simpa using h2
    rw [this]

theorem filter_assocErase_content_nil (f : String → String) (c : String) :
    ∀ l : List (String × String), Objects.HashConsistent f l →
      (assocErase l (f c)).filter (fun kv => kv.2 == c) = [] := by
  intro l
  induction l with
  | nil => intro _; simp [assocErase]
  | cons hd tl ih =>
    intro h
    have htl : Objects.HashConsistent f tl :=
      fun kv hkv => h kv (List.mem_cons_of_mem _ hkv)
    by_cases hh : hd.1 = f c
    · simpa [assocErase, hh] using ih htl
    · have hd2 : ¬ hd.2 = c := by
        intro hc
        exact hh (by rw [h hd (List.mem_cons_self _ _), hc])
      simp only [assocErase]
      rw [if_neg (by simpa using hh), List.filter_cons]
      simpa [hd2] using ih htl

theorem countRecords_set (f : String → String) (l : List (String × String))
    (c : String) (h : Objects.HashConsistent f l) :
    Objects.countRecords (assocSet l (f c) c) c = 1 := by
  unfold Objects.countRecords assocSet
  rw [List.filter_append, filter_assocErase_content_nil f c l h]
  simp

theorem mem_ensureDir_self (l : List String) (d : String) :
    d ∈ ensureDir l d := by
  unfold ensureDir
  by_cases hc : l.contains d
  · rw [if_pos hc]
    exact List.mem_of_elem_eq_true hc
  · rw [if_neg hc]
    exact List.mem_append_right _ (List.mem_singleton.mpr rfl)

theorem mem_ensureDir_of_mem (l : List String) (d x : String) (h : x ∈ l) :
    x ∈ ensureDir l d := by
  unfold ensureDir
  split
  · exact h
  · exact List.mem_append_left _ h

/-! The claims. -/

/-- Claim C5: for every content value, calling the object store's write
twice returns the same hash both times, and afterwards the store holds
exactly one persisted record for that content (writes are idempotent and
deduplicating).  The store is hash-consistent when every record it already
holds is filed under the digest of its own content, which write itself
guarantees for all records it creates. -/
theorem C5_object_write_idempotent (f : String → String)
    (st : List (String × String)) (c : String)
    (hwf : Objects.HashConsistent f st) :
    (Objects.write f st c).2 = (Objects.write f (Objects.write f st c).1 c).2 ∧
    Objects.countRecords (Objects.write f (Objects.write f st c).1 c).1 c = 1 := by
  constructor
  · rfl
  · exact countRecords_set f _ c (objects_hashConsistent_set f st c hwf)

theorem C5_object_write_idempotent_witness :
    Objects.HashConsistent (fun s => "#" ++ s) [] ∧
    ((Objects.write (fun s => "#" ++ s) [] "hello").2 =
       (Objects.write (fun s => "#" ++ s)
         (Objects.write (fun s => "#" ++ s) [] "hello").1 "hello").2 ∧
     Objects.countRecords (Objects.write (fun s => "#" ++ s)
       (Objects.write (fun s => "#" ++ s) [] "hello").1 "hello").1 "hello" = 1) :=
  ⟨fun kv hkv => absurd hkv (List.not_mem_nil kv),
   C5_object_write_idempotent (fun s => "#" ++ s) [] "hello"
     (fun kv hkv => absurd hkv (List.not_mem_nil kv))⟩

/-- Claim C9: init in a directory that is already a repository prints the
error message but does not abort: it still writes the repository structure,
setting HEAD to the master symbolic ref, a fresh config, and the objects and
refs/heads directories, overwriting the existing metadata files. -/
theorem C9_init_reports_and_proceeds (s : InitState) (h : s.inRepo = true) :
    (init s false).errors =
      s.errors ++ ["This EnkelGit repository is already initialized!"] ∧
    assocLookup (init s false).files ".enkelgit/HEAD" =
      some "ref: refs/heads/master\n" ∧
    assocLookup (init s false).files ".enkelgit/config" =
      some "[core]\n  bare = false\n" ∧
    ".enkelgit/objects" ∈ (init s false).dirs ∧
    ".enkelgit/refs/heads" ∈ (init s false).dirs := by
  have e1 : ((".enkelgit/" : String) ++ "HEAD") = ".enkelgit/HEAD" := rfl
  have e2 : ((".enkelgit/" : String) ++ "config") = ".enkelgit/config" := rfl
  have e3 : ((".enkelgit/" : String) ++ "objects") = ".enkelgit/objects" := rfl
  have e4 : ((".enkelgit/" : String) ++ "refs/heads") = ".enkelgit/refs/heads" := rfl
  have hne : (".enkelgit/HEAD" : String) ≠ ".enkelgit/config" := by decide
  refine ⟨?_, ?_, ?_, ?_, ?_⟩
  · simp [init, h]
  · simp only [init, h, if_true, Bool.false_eq_true, if_false, e1, e2]
    rw [assocLookup_set_ne _ _ _ _ hne, assocLookup_set_self]
  · simp only [init, h, if_true, Bool.false_eq_true, if_false, e1, e2]
    rw [assocLookup_set_self]
    rfl
  · simp only [init, h, if_true, Bool.false_eq_true, if_false, e3, e4]
    exact mem_ensureDir_of_mem _ _ _ (mem_ensureDir_self _ _)
  · simp only [init, h, if_true, Bool.false_eq_true, if_false, e3, e4]
    exact mem_ensureDir_self _ _

theorem C9_init_reports_and_proceeds_witness :
    stC9.inRepo = true ∧
    ((init stC9 false).errors =
       stC9.errors ++ ["This EnkelGit repository is already initialized!"] ∧
     assocLookup (init stC9 false).files ".enkelgit/HEAD" =
       some "ref: refs/heads/master\n" ∧
     assocLookup (init stC9 false).files ".enkelgit/config" =
       some "[core]\n  bare = false\n" ∧
     ".enkelgit/objects" ∈ (init stC9 false).dirs ∧
     ".enkelgit/refs/heads" ∈ (init stC9 false).dirs) :=
  ⟨rfl, C9_init_reports_and_proceeds stC9 rfl⟩

/-- Claim C10: checking out the ref that is already checked out (the current
branch's name, or the exact string stored in HEAD) returns the Already-on
message and leaves HEAD, the index and the working copy unchanged. -/
theorem C10_checkout_already_on (s : RepoState) (ref : String)
    (h1 : objExistsOpt s.objects (refHash s ref) = true)
    (h2 : isCommitAt s (refHash s ref) = true)
    (h3 : alreadyOnB s ref = true) :
    checkout s ref = (s, .ok ("Already on " ++ ref)) := by
  simp [checkout, h1, h2, h3]

theorem C10_checkout_already_on_witness :
    (objExistsOpt stC10.objects (refHash stC10 "master") = true ∧
     isCommitAt stC10 (refHash stC10 "master") = true ∧
     alreadyOnB stC10 "master" = true) ∧
    checkout stC10 "master" = (stC10, .ok ("Already on " ++ "master")) :=
  ⟨⟨by decide, by decide, by decide⟩,
   C10_checkout_already_on stC10 "master" (by decide) (by decide) (by decide)⟩

/-- Claim C2: for a checkout of a valid target commit that is not already
checked out, when the set of paths that differ between the working copy and
HEAD and also between HEAD and the target is non-empty, checkout fails with
the local-changes error listing those paths and the state (working copy,
index, HEAD) is unchanged; when the set is empty, the checkout proceeds. -/
theorem C2_checkout_dirty_guard (s : RepoState) (ref : String)
    (h1 : objExistsOpt s.objects (refHash s ref) = true)
    (h2 : isCommitAt s (refHash s ref) = true)
    (h3 : alreadyOnB s ref = false) :
    (changedFilesCommitWouldOverwrite s ((refHash s ref).getD "") ≠ [] →
      checkout s ref = (s, .error ("local changes would be lost\n" ++
        joinNL (changedFilesCommitWouldOverwrite s ((refHash s ref).getD "")) ++ "\n"))) ∧
    (changedFilesCommitWouldOverwrite s ((refHash s ref).getD "") = [] →
      (checkout s ref).2 = .ok (if objExistsS s.objects ref then
        "Note: checking out " ++ ((refHash s ref).getD "") ++
          "\nYou are in detached HEAD state."
      else "Switched to branch " ++ ref)) := by
  constructor
  · intro hp
    have hp' : (changedFilesCommitWouldOverwrite s ((refHash s ref).getD "")).isEmpty
        = false := by
      rcases hl : changedFilesCommitWouldOverwrite s ((refHash s ref).getD "") with
        _ | ⟨a, as⟩
      · exact absurd hl hp
      · rfl
    simp [checkout, h1, h2, h3, hp']
  · intro hp
    simp [checkout, h1, h2, h3, hp]

theorem C2_checkout_dirty_guard_witness :
    (objExistsOpt stC2.objects (refHash stC2 (objHash wCommitB)) = true ∧
     isCommitAt stC2 (refHash stC2 (objHash wCommitB)) = true ∧
     alreadyOnB stC2 (objHash wCommitB) = false) ∧
    ((changedFilesCommitWouldOverwrite stC2 ((refHash stC2 (objHash wCommitB)).getD "") ≠ [] →
       checkout stC2 (objHash wCommitB) = (stC2, .error ("local changes would be lost\n" ++
         joinNL (changedFilesCommitWouldOverwrite stC2
           ((refHash stC2 (objHash wCommitB)).getD "")) ++ "\n"))) ∧
     (changedFilesCommitWouldOverwrite stC2 ((refHash stC2 (objHash wCommitB)).getD "") = [] →
       (checkout stC2 (objHash wCommitB)).2 = .ok (if objExistsS stC2.objects (objHash wCommitB) then
         "Note: checking out " ++ ((refHash stC2 (objHash wCommitB)).getD "") ++
           "\nYou are in detached HEAD state."
       else "Switched to branch " ++ objHash wCommitB))) :=
  ⟨⟨by decide, by decide, by decide⟩,
   C2_checkout_dirty_guard stC2 (objHash wCommitB) (by decide) (by decide) (by decide)⟩

/-- Claim C6: rm without force, when some matched file is added or modified
between index and working copy, fails with the changes error listing those
files; no file is deleted from disk and no index entry is removed (the state
is returned unchanged). -/
theorem C6_rm_dirty_guard (s : RepoState) (p : String) (optR : Bool)
    (h1 : (matchingFiles s.index p).isEmpty = false)
    (h2 : (isOnDiskB s p && isDirB s p && !optR) = false)
    (h3 : (intersectionL (addedOrModifiedFiles s) (matchingFiles s.index p)).isEmpty
      = false) :
    rm s p false optR = (s, .error ("these files have changes:\n" ++
      joinNL (intersectionL (addedOrModifiedFiles s) (matchingFiles s.index p))
        ++ "\n")) := by
  simp [rm, h1, h2, h3]

theorem C6_rm_dirty_guard_witness :
    ((matchingFiles stC6.index "f").isEmpty = false ∧
     (isOnDiskB stC6 "f" && isDirB stC6 "f" && !false) = false ∧
     (intersectionL (addedOrModifiedFiles stC6) (matchingFiles stC6.index "f")).isEmpty
       = false) ∧
    rm stC6 "f" false false = (stC6, .error ("these files have changes:\n" ++
      joinNL (intersectionL (addedOrModifiedFiles stC6) (matchingFiles stC6.index "f"))
        ++ "\n")) :=
  ⟨⟨by decide, by decide, by decide⟩,
   C6_rm_dirty_guard stC6 "f" false (by decide) (by decide) (by decide)⟩

theorem objExistsS_set_self (l : List (String × GitObject)) (k : String)
    (v : GitObject) : objExistsS (assocSet l k v) k = true := by
  unfold objExistsS
  rw [assocLookup_set_self]
  rfl

/-- After writing a commit object, pointing HEAD at it while HEAD is
detached overwrites the HEAD file with the commit's hash and touches no
branch ref. -/
theorem update_ref_head_detached (s0 : RepoState) (cO : GitObject) (k : String)
    (hco : objTypeStr cO = "commit") (hdet : isHeadDetached s0 = true) :
    update_ref { s0 with objects := assocSet s0.objects k cO } "HEAD" k =
      ({ s0 with objects := assocSet s0.objects k cO, headContent := k }, .ok "") := by
  have hEx : objExistsS ({ s0 with objects := assocSet s0.objects k cO }).objects k = true :=
    objExistsS_set_self s0.objects k cO
  have hRef : refHash { s0 with objects := assocSet s0.objects k cO } k = some k := by
    unfold refHash
    rw [if_pos hEx]
  have hLook : objLookup ({ s0 with objects := assocSet s0.objects k cO }).objects k = some cO :=
    assocLookup_set_self s0.objects k cO
  have hdet2 : isHeadDetached { s0 with objects := assocSet s0.objects k cO } = true := hdet
  simp only [update_ref, hRef]
  rw [if_neg (by simp [objExistsOpt, hEx])]
  rw [if_neg (by simp [isRefB])]
  rw [if_neg (by simp [isCommitAt, hLook, hco])]
  simp only [terminalRef]
  rw [if_pos (show ("HEAD" == "HEAD") = true from rfl)]
  rw [if_pos hdet2]
  simp only [refsWrite]
  rw [if_pos (show ("HEAD" == "HEAD") = true from rfl)]
  rfl

/-- A commit made in detached-HEAD state (outside a merge, with something to
commit) writes the new commit's hash into HEAD in place and leaves every
branch ref unchanged, returning the detached-HEAD commit report. -/
theorem commit_detached_spec (u : RepoState) (msg : String)
    (u1 : isHeadDetached u = true)
    (u2 : isMergeInProgress u = false)
    (u3 : nothingToCommitB u = false) :
    (commit u msg).1.headContent = newCommitHash u msg ∧
    (commit u msg).1.branches = u.branches ∧
    (commit u msg).2 =
      .ok ("[" ++ "detached HEAD" ++ " " ++ newCommitHash u msg ++ "] " ++ msg) := by
  have u1c : isHeadDetached (commitTreeState u) = true := u1
  have u2c : isMergeInProgress (commitTreeState u) = false := u2
  have u2m : u.mergeHead.isSome = false := u2
  have hupd := update_ref_head_detached (commitTreeState u)
    (GitObject.commit (writeTreeHash u) (commitParentHashes (commitTreeState u)) msg)
    (objHash (GitObject.commit (writeTreeHash u) (commitParentHashes (commitTreeState u)) msg))
    rfl u1c
  have hstep : commit u msg =
      ({ commitTreeState u with objects := assocSet (commitTreeState u).objects (newCommitHash u msg) (GitObject.commit (writeTreeHash u) (commitParentHashes (commitTreeState u)) msg), headContent := newCommitHash u msg },
       .ok ("[" ++ "detached HEAD" ++ " " ++ newCommitHash u msg ++ "] " ++ msg)) := by
    simp only [commit]
    rw [if_neg (by simp [u3]), if_neg (by simp [u2c])]
    simp only [u1, u2c, Bool.false_eq_true, if_false, if_true]
    rw [hupd]
    dsimp only
    rw [if_neg (by simp [isMergeInProgress, commitTreeState, u2m])]
    rfl
  exact ⟨by rw [hstep], by rw [hstep]; rfl, by rw [hstep]⟩

/-- Claim C8: checking out a raw commit hash stored in the object store sets
HEAD to that hash directly (detached), checking out a branch name sets HEAD
to a symbolic pointer to that branch, and a commit made in detached state
updates HEAD's hash in place without modifying any branch ref. -/
theorem C8_detached_head (s t u : RepoState)
    (hashRef branchName bHash msg : String)
    (d1 : objExistsS s.objects hashRef = true)
    (d2 : isCommitAt s (some hashRef) = true)
    (d3 : alreadyOnB s hashRef = false)
    (d4 : changedFilesCommitWouldOverwrite s hashRef = [])
    (b1 : objExistsS t.objects branchName = false)
    (b2 : refHash t branchName = some bHash)
    (b3 : objExistsS t.objects bHash = true)
    (b4 : isCommitAt t (some bHash) = true)
    (b5 : alreadyOnB t branchName = false)
    (b6 : changedFilesCommitWouldOverwrite t bHash = [])
    (u1 : isHeadDetached u = true)
    (u2 : isMergeInProgress u = false)
    (u3 : nothingToCommitB u = false) :
    (checkout s hashRef).1.headContent = hashRef ∧
    (checkout t branchName).1.headContent = "ref: " ++ ("refs/heads/" ++ branchName) ∧
    (commit u msg).1.headContent = newCommitHash u msg ∧
    (commit u msg).1.branches = u.branches ∧
    (commit u msg).2 =
      .ok ("[" ++ "detached HEAD" ++ " " ++ newCommitHash u msg ++ "] " ++ msg) := by
  have hcd := commit_detached_spec u msg u1 u2 u3
  refine ⟨?_, ?_, hcd.1, hcd.2.1, hcd.2.2⟩
  · have href : refHash s hashRef = some hashRef := by
      unfold refHash
      rw [if_pos d1]
    simp [checkout, objExistsOpt, href, d1, d2, d3, d4]
  · simp [checkout, objExistsOpt, b1, b2, b3, b4, b5, b6]

theorem C8_detached_head_witness :
    (objExistsS stC8s.objects (objHash wCommitB) = true ∧
     isCommitAt stC8s (some (objHash wCommitB)) = true ∧
     alreadyOnB stC8s (objHash wCommitB) = false ∧
     changedFilesCommitWouldOverwrite stC8s (objHash wCommitB) = [] ∧
     objExistsS stC8t.objects "dev" = false ∧
     refHash stC8t "dev" = some (objHash wCommitB) ∧
     objExistsS stC8t.objects (objHash wCommitB) = true ∧
     isCommitAt stC8t (some (objHash wCommitB)) = true ∧
     alreadyOnB stC8t "dev" = false ∧
     changedFilesCommitWouldOverwrite stC8t (objHash wCommitB) = [] ∧
     isHeadDetached stC8u = true ∧
     isMergeInProgress stC8u = false ∧
     nothingToCommitB stC8u = false) ∧
    ((checkout stC8s (objHash wCommitB)).1.headContent = objHash wCommitB ∧
     (checkout stC8t "dev").1.headContent = "ref: " ++ ("refs/heads/" ++ "dev") ∧
     (commit stC8u "m3").1.headContent = newCommitHash stC8u "m3" ∧
     (commit stC8u "m3").1.branches = stC8u.branches ∧
     (commit stC8u "m3").2 =
       .ok ("[" ++ "detached HEAD" ++ " " ++ newCommitHash stC8u "m3" ++ "] " ++ "m3")) :=
  ⟨⟨by decide, by decide, by decide, by decide, by decide, by decide, by decide,
    by decide, by decide, by decide, by decide, by decide, by decide⟩,
   C8_detached_head stC8s stC8t stC8u (objHash wCommitB) "dev" (objHash wCommitB) "m3"
     (by decide) (by decide) (by decide) (by decide) (by decide) (by decide)
     (by decide) (by decide) (by decide) (by decide) (by decide) (by decide)
     (by decide)⟩

/-- Claim C7 (counterexample): a path with only a conflict-stage entry has no
stage-0 entry, so update_index with remove takes the not-in-index branch and
succeeds as a no-op instead of failing with Unsupported. -/
theorem C7_counterexample :
    isFileInConflict stC7.index "f" = true ∧
    update_index stC7 "f" false true = (stC7, .ok "\n") := by
  constructor
  · decide
  · rfl

/-- Claim C7 (amended): removing a path that is absent from disk via
update_index is a silent no-op when the path has no stage-0 entry (the
situation of every conflicted path, whose entries are thus left unchanged
but without an Unsupported failure), and removes all of the path's entries
when it is staged without conflict. -/
theorem C7_remove_from_index (s : RepoState) (p : String)
    (hd : isOnDiskB s p = false) :
    (hasFile s.index p 0 = false → update_index s p false true = (s, .ok "\n")) ∧
    (hasFile s.index p 0 = true → isFileInConflict s.index p = false →
      update_index s p false true =
        ({ s with index := writeRm s.index p }, .ok "\n")) := by
  constructor
  · intro h0
    simp [update_index, hd, h0]
  · intro h0 hc
    simp [update_index, hd, h0, hc]

theorem refsWrite_index (s : RepoState) (n c : String) :
    (refsWrite s n c).index = s.index := by
  unfold refsWrite
  split
  · rfl
  · split
    · rfl
    · split
      · rfl
      · rfl

theorem update_ref_keeps_index (s : RepoState) (a b : String) :
    (update_ref s a b).1.index = s.index := by
  simp only [update_ref]
  split
  · rfl
  · split
    · rfl
    · split
      · rfl
      · exact refsWrite_index _ _ _

/-- Claim C3 (counterexample): a successful commit whose index still holds
the captured staged entry afterwards, refuting the claim that the index is
consumed (cleared) by commit. -/
theorem C3_counterexample :
    (commit stC3ce "m").2 =
      .ok ("[master " ++ newCommitHash stC3ce "m" ++ "] " ++ "m") ∧
    (commit stC3ce "m").1.index = [⟨"f", 0, "b:one"⟩] ∧
    stC3ce.index = [⟨"f", 0, "b:one"⟩] :=
  ⟨rfl, rfl, rfl⟩

/-- Claim C3 (amended): commit never touches the index: after any commit,
successful or not, the index still holds exactly the entries it held before
(the staged entries are not consumed). -/
theorem C3_commit_keeps_index (s : RepoState) (m : String) :
    (commit s m).1.index = s.index := by
  simp only [commit]
  split
  · rfl
  · split
    · rfl
    · split
      next s3 e heq =>
        have h2 := congrArg RepoState.index (congrArg Prod.fst heq)
        rw [update_ref_keeps_index] at h2
        exact h2.symm
      next s3 r heq =>
        have h2 := congrArg RepoState.index (congrArg Prod.fst heq)
        rw [update_ref_keeps_index] at h2
        split
        · exact h2.symm
        · exact h2.symm

/-- Claim C1 (counterexample): a state whose index holds a conflict-stage
entry but with no merge in progress: commit succeeds and the new commit is
made reachable from HEAD, refuting the claim that any commit attempted while
conflictedPaths() is non-empty fails with UnresolvedConflicts. -/
theorem C1_counterexample :
    conflictedPaths stC1ce.index = ["f"] ∧
    isMergeInProgress stC1ce = false ∧
    (commit stC1ce "msg").2 =
      .ok ("[master " ++ newCommitHash stC1ce "msg" ++ "] " ++ "msg") ∧
    assocLookup (commit stC1ce "msg").1.branches "master" =
      some (newCommitHash stC1ce "msg") :=
  ⟨rfl, rfl, rfl, rfl⟩

/-- Claim C1 (amended): while a merge is in progress with a non-empty set of
conflicted paths (and there is something to commit), commit fails with the
unmerged-files error listing each conflicted path; no new commit object is
written, and HEAD and the branch refs are unchanged, so no new commit
becomes reachable from HEAD. -/
theorem C1_merge_conflict_blocks_commit (s : RepoState) (m : String)
    (hm : isMergeInProgress s = true)
    (hc : (conflictedPaths s.index).isEmpty = false)
    (hn : nothingToCommitB s = false) :
    commit s m = (commitTreeState s, .error (unresolvedConflictsMsg s.index)) ∧
    (∀ kv ∈ (commit s m).1.objects, objTypeStr kv.2 = "commit" →
      kv ∈ s.objects) ∧
    (commit s m).1.headContent = s.headContent ∧
    (commit s m).1.branches = s.branches := by
  have hm1 : isMergeInProgress (commitTreeState s) = true := hm
  have hc1 : (conflictedPaths (commitTreeState s).index).isEmpty = false := hc
  have heq : commit s m =
      (commitTreeState s, .error (unresolvedConflictsMsg s.index)) := by
    simp only [commit]
    rw [if_neg (by simp [hn]), if_pos (by simp [hm1, hc1])]
    rfl
  refine ⟨heq, ?_, ?_, ?_⟩
  · intro kv hkv htag
    rw [heq] at hkv
    simp only [commitTreeState, assocSet] at hkv
    rcases List.mem_append.mp hkv with h1 | h2
    · exact mem_of_mem_assocErase h1
    · exfalso
      have hkv2 : kv = (writeTreeHash s, GitObject.tree (indexToc s.index)) := by
        simpa using h2
      rw [hkv2] at htag
      simp [objTypeStr] at htag
  · rw [heq]
    rfl
  · rw [heq]
    rfl

theorem C1_merge_conflict_blocks_commit_witness :
    (isMergeInProgress stC1w = true ∧
     (conflictedPaths stC1w.index).isEmpty = false ∧
     nothingToCommitB stC1w = false) ∧
    (commit stC1w "msg" =
       (commitTreeState stC1w, .error (unresolvedConflictsMsg stC1w.index)) ∧
     (∀ kv ∈ (commit stC1w "msg").1.objects, objTypeStr kv.2 = "commit" →
       kv ∈ stC1w.objects) ∧
     (commit stC1w "msg").1.headContent = stC1w.headContent ∧
     (commit stC1w "msg").1.branches = stC1w.branches) :=
  ⟨⟨rfl, rfl, rfl⟩, C1_merge_conflict_blocks_commit stC1w "msg" rfl rfl rfl⟩

/-- Claim C4 (code bug): a successful-looking commit made while a merge is
in progress reaches the merge-finishing branch, which calls
Files.gitletPath (undefined: the Files module's helper is enkelgitPath, as
at every other call site in Core.js), so the operation throws a TypeError
after HEAD has already been updated: the MERGE_HEAD and MERGE_MSG markers
are never removed, isMergeInProgress() stays true, and the merge-completion
message is never returned. -/
theorem C4_merge_commit_crashes :
    (commit stC4 "").2 = .error "TypeError: Files.gitletPath is not a function" ∧
    isMergeInProgress (commit stC4 "").1 = true ∧
    (commit stC4 "").1.mergeHead = some "mh" ∧
    (commit stC4 "").1.mergeMsg = some "Merge b into master" ∧
    assocLookup (commit stC4 "").1.branches "master" =
      some (newCommitHash stC4 "Merge b into master") :=
  ⟨rfl, rfl, rfl, rfl, rfl⟩

theorem C7_remove_from_index_witness :
    isOnDiskB stC7 "f" = false ∧
    ((hasFile stC7.index "f" 0 = false →
       update_index stC7 "f" false true = (stC7, .ok "\n")) ∧
     (hasFile stC7.index "f" 0 = true → isFileInConflict stC7.index "f" = false →
       update_index stC7 "f" false true =
         ({ stC7 with index := writeRm stC7.index "f" }, .ok "\n"))) :=
  ⟨by decide, C7_remove_from_index stC7 "f" (by decide)⟩

end EnkelGit
